import Mathlib

/-!
Verification development for `c7n/resources/elasticsearch.py`: the
ElasticSearch domain resource manager (enumeration, augmentation with tags,
ARN generation) and its filters and actions (metrics dimensions, delete,
tag, remove-tag, mark-for-op), together with the retry policy and chunking
helpers the module uses.

Provider calls are modelled as pure functions supplied by the environment;
every operation additionally returns the ordered trace of provider API calls
it issued, so call-count and call-order properties can be stated directly.
Python exceptions are modelled as `Option String` (`some msg` = an exception
escaped) or per-call failure functions.
-/

namespace ES

/-- One `{Key, Value}` tag pair, as in the provider tag lists. -/
structure ESTag where
  Key : String
  Value : String
deriving DecidableEq, Repr

/-- A resource record (one search domain), restricted to the fields the
module touches: the identifying field `DomainName`, the provider-supplied
`ARN` field (absent = `none`), and the `Tags` field (absent = `none`,
populated during augmentation). -/
structure ESRecord where
  DomainName : String
  ARN : Option String := none
  Tags : Option (List ESTag) := none
deriving DecidableEq, Repr

/-- Manager configuration consumed by the module (`self.config`). -/
structure Config where
  region : String
  account_id : String
deriving DecidableEq, Repr

/-- Provider API calls the module can issue, recorded in traces. -/
inductive ApiCall where
  | describeDomains (names : List String)
  | listTags (arn : String)
  | addTags (arn : String) (tagList : List ESTag)
  | removeTags (arn : String) (tagKeys : List String)
  | deleteDomain (name : String)
deriving DecidableEq, Repr

/-- The provider client used by enumeration/augmentation: `describeOne d` is
the `DomainStatus` record the provider returns for domain name `d`
(`describe_elasticsearch_domains(DomainNames=names)` returns one record per
requested name, in request order), and `tagListOf arn` is the `TagList` the
provider returns from `list_tags(ARN=arn)` (`none` = key absent from the
response). -/
structure Client where
  describeOne : String → ESRecord
  tagListOf : String → Option (List ESTag)

/-- Modelled from the spec: `c7n.utils.generate_arn` is not under `src/`.
"ARN: a globally-structured resource identifier string derived
deterministically from service/region/account/type/id"; a pure function of
(service, region, account, resource-type, separator, id). -/
def generate_arn (service : String) (resource : String) (region : String)
    (account_id : String) (resource_type : String) (separator : String) : String :=
  "arn:aws:" ++ service ++ ":" ++ region ++ ":" ++ account_id ++ ":"
    ++ resource_type ++ separator ++ resource

/-- The partial application built by `ElasticSearchDomain.generate_arn`
(lines 54-60): `functools.partial(generate_arn, 'es', region=...,
account_id=..., resource_type='domain', separator='/')`. -/
def esArnOf (config : Config) (id : String) : String :=
  generate_arn "es" id config.region config.account_id "domain" "/"

/-- The mutable manager state relevant to ARN generation: the configuration
and the `_generate_arn` cache slot (initially `None`, line 48). -/
structure ElasticSearchDomain where
  config : Config
  _generate_arn : Option (String → String) := none

/-- The `generate_arn` property (lines 51-61): if the cache slot is empty,
build the partial application, store it, and return it; otherwise return the
cached function.  Returns the function together with the manager state after
the access. -/
def generateArnProp (m : ElasticSearchDomain) :
    (String → String) × ElasticSearchDomain :=
  match m._generate_arn with
  | some f => (f, m)
  | none => (esArnOf m.config, { m with _generate_arn := some (esArnOf m.config) })

/-- Modelled from the spec: `c7n.utils.chunks` is not under `src/`.
"Partition `ids` into chunks of fixed maximum size N": successive slices of
`n` elements in enumeration order, the last possibly shorter.  Defined as
`[]` when `n = 0` (the module only ever uses `n = 5`). -/
def chunks (xs : List α) (n : Nat) : List (List α) :=
  if n = 0 ∨ xs.isEmpty then []
  else xs.take n :: chunks (xs.drop n) n
termination_by xs.length
decreasing_by
  rename_i h
  simp only [not_or, List.isEmpty_iff] at h
  simp only [List.length_drop]
  exact Nat.sub_lt (List.length_pos.mpr h.2) (Nat.pos_of_ne_zero h.1)

/-- The record produced for domain name `d` by the augmentation step: the
provider's describe record with `Tags` set to the provider's tag list for
the generated ARN (empty list when the response has no `TagList`).  Note the
record's own `ARN` field is not modified. -/
def augmentOne (cfg : Config) (client : Client) (d : String) : ESRecord :=
  let r := client.describeOne d
  { r with Tags := some ((client.tagListOf (esArnOf cfg r.DomainName)).getD []) }

/-- The inner `_augment` worker (lines 72-80): describe the chunk, then for
each returned record compute its ARN with `generate_arn` and assign the
provider's tag list (default `[]`) into `Tags`.  Returns the augmented
records together with the trace of provider calls this chunk issued:
one describe call, then one `list_tags` call per returned record, in
response order. -/
def _augment (cfg : Config) (client : Client) (resource_set : List String) :
    List ESRecord × List ApiCall :=
  let rs := resource_set.map client.describeOne
  (rs.map (fun r =>
      { r with Tags := some ((client.tagListOf (esArnOf cfg r.DomainName)).getD []) }),
    ApiCall.describeDomains resource_set ::
      rs.map (fun r => ApiCall.listTags (esArnOf cfg r.DomainName)))

/-- `ElasticSearchDomain.augment` (lines 68-84): split `domains` into chunks
of 5, map `_augment` over the chunks with a single worker (so chunks are
processed sequentially, in submission order), and concatenate the chunk
results.  Returns the merged records and the full provider-call trace. -/
def augment (cfg : Config) (client : Client) (domains : List String) :
    List ESRecord × List ApiCall :=
  let results := (chunks domains 5).map (_augment cfg client)
  ((results.map Prod.fst).flatten, (results.map Prod.snd).flatten)

/-- `ElasticSearchDomain.get_resources` (lines 63-66): a single
describe-by-ids call whose `DomainStatusList` is returned directly. -/
def get_resources (client : Client) (resource_ids : List String) :
    List ESRecord × List ApiCall :=
  (resource_ids.map client.describeOne, [ApiCall.describeDomains resource_ids])

/-- Predicate for describe calls in a trace. -/
def isDescribeCall : ApiCall → Bool
  | .describeDomains _ => true
  | _ => false

/-- Predicate for `list_tags` calls in a trace. -/
def isListTagsCall : ApiCall → Bool
  | .listTags _ => true
  | _ => false

/-- Number of describe calls in a trace. -/
def countDescribes (calls : List ApiCall) : Nat := calls.countP isDescribeCall

/-- Number of `list_tags` calls in a trace. -/
def countListTags (calls : List ApiCall) : Nat := calls.countP isListTagsCall

/-! ### Metrics filter -/

/-- One CloudWatch metric dimension, `{Name, Value}`. -/
structure Dimension where
  Name : String
  Value : String
deriving DecidableEq, Repr

/-- `Metrics.get_dimensions` (lines 102-106): the dimensions supplied to the
metrics collaborator for one resource record, given the manager's account
id. -/
def get_dimensions (account_id : String) (resource : ESRecord) : List Dimension :=
  [{ Name := "ClientId", Value := account_id },
   { Name := "DomainName", Value := resource.DomainName }]

/-! ### Actions

Each per-record provider call is modelled by a function returning
`Option String`: `none` = success, `some e` = the call raised exception `e`.
Each action returns the exception escaping the action (if any), the trace of
provider calls issued, and the log messages emitted. -/

/-- `Delete.process` (lines 115-118): call
`delete_elasticsearch_domain(DomainName=...)` for each record in order.
The loop body has no try/except, so the first exception propagates and the
remaining records are not attempted.  Returns (escaping exception, trace of
attempted delete calls). -/
def deleteProcess (delete_domain : String → Option String) :
    List ESRecord → Option String × List ApiCall
  | [] => (none, [])
  | r :: rest =>
    match delete_domain r.DomainName with
    | none =>
      let res := deleteProcess delete_domain rest
      (res.1, ApiCall.deleteDomain r.DomainName :: res.2)
    | some e => (some e, [ApiCall.deleteDomain r.DomainName])

/-- The tag list built by `ElasticSearchAddTag.process_resource_set`
(lines 143-145): `{'Key': t['Key'], 'Value': t['Value']}` for each input
tag. -/
def mkTagList (tags : List ESTag) : List ESTag :=
  tags.map (fun t => { Key := t.Key, Value := t.Value })

/-- One iteration of the tag loop body (lines 147-148, inside `try`):
evaluate `d['ARN']` (raises a `KeyError` when the record has no ARN field),
then call `add_tags(ARN=..., TagList=...)`.  Returns the provider calls
issued and the exception raised by the body, if any. -/
def addTagsAttempt (add_tags : String → List ESTag → Option String)
    (tag_list : List ESTag) (d : ESRecord) : List ApiCall × Option String :=
  match d.ARN with
  | none => ([], some "KeyError: ARN")
  | some arn => ([ApiCall.addTags arn tag_list], add_tags arn tag_list)

/-- The per-domain loop of `ElasticSearchAddTag.process_resource_set`
(lines 146-153): try the body; on any exception, log
"Exception tagging es domain ..." and continue with the next domain. -/
def esAddTagLoop (add_tags : String → List ESTag → Option String)
    (tag_list : List ESTag) : List ESRecord → List ApiCall × List String
  | [] => ([], [])
  | d :: rest =>
    let att := addTagsAttempt add_tags tag_list d
    let logs :=
      match att.2 with
      | none => []
      | some e => ["Exception tagging es domain " ++ d.DomainName ++ ": " ++ e]
    let res := esAddTagLoop add_tags tag_list rest
    (att.1 ++ res.1, logs ++ res.2)

/-- `ElasticSearchAddTag.process_resource_set` (lines 141-153): build the
`{Key, Value}` tag list from the input tags, then run the per-domain loop;
every per-resource exception is caught inside the loop, so no exception
escapes (the first component is the escaping exception, always `none`). -/
def esAddTagProcessResourceSet (add_tags : String → List ESTag → Option String)
    (domains : List ESRecord) (tags : List ESTag) :
    Option String × List ApiCall × List String :=
  (none, esAddTagLoop add_tags (mkTagList tags) domains)

/-- One iteration of the remove-tag loop body (line 179, inside `try`):
evaluate `d['ARN']`, then call `remove_tags(ARN=..., TagKeys=tags)`. -/
def removeTagsAttempt (remove_tags : String → List String → Option String)
    (tagKeys : List String) (d : ESRecord) : List ApiCall × Option String :=
  match d.ARN with
  | none => ([], some "KeyError: ARN")
  | some arn => ([ApiCall.removeTags arn tagKeys], remove_tags arn tagKeys)

/-- The per-domain loop of `ElasticSearchRemoveTag.process_resource_set`
(lines 177-184): try the body; on any exception, log
"Exception while removing tags from queue ..." and continue. -/
def esRemoveTagLoop (remove_tags : String → List String → Option String)
    (tagKeys : List String) : List ESRecord → List ApiCall × List String
  | [] => ([], [])
  | d :: rest =>
    let att := removeTagsAttempt remove_tags tagKeys d
    let logs :=
      match att.2 with
      | none => []
      | some e =>
        ["Exception while removing tags from queue " ++ d.DomainName ++ ": " ++ e]
    let res := esRemoveTagLoop remove_tags tagKeys rest
    (att.1 ++ res.1, logs ++ res.2)

/-- `ElasticSearchRemoveTag.process_resource_set` (lines 175-184). -/
def esRemoveTagProcessResourceSet (remove_tags : String → List String → Option String)
    (domains : List ESRecord) (tags : List String) :
    Option String × List ApiCall × List String :=
  (none, esRemoveTagLoop remove_tags tags domains)

/-- The per-domain loop of `ElasticSearchMarkForOp.process_resource_set`
(lines 213-220), translated separately from its own source lines: try
`add_tags(ARN=d['ARN'], TagList=tag_list)`; on any exception, log
"Exception tagging es domain ..." and continue. -/
def esMarkForOpLoop (add_tags : String → List ESTag → Option String)
    (tag_list : List ESTag) : List ESRecord → List ApiCall × List String
  | [] => ([], [])
  | d :: rest =>
    let att :=
      match d.ARN with
      | none => (([] : List ApiCall), some "KeyError: ARN")
      | some arn => ([ApiCall.addTags arn tag_list], add_tags arn tag_list)
    let logs :=
      match att.2 with
      | none => []
      | some e => ["Exception tagging es domain " ++ d.DomainName ++ ": " ++ e]
    let res := esMarkForOpLoop add_tags tag_list rest
    (att.1 ++ res.1, logs ++ res.2)

/-- `ElasticSearchMarkForOp.process_resource_set` (lines 208-220): build the
`{Key, Value}` tag list from the input tags (lines 210-212), then run the
per-domain add-tags loop with per-resource exception isolation. -/
def esMarkForOpProcessResourceSet (add_tags : String → List ESTag → Option String)
    (domains : List ESRecord) (tags : List ESTag) :
    Option String × List ApiCall × List String :=
  (none, esMarkForOpLoop add_tags (tags.map (fun t => { Key := t.Key, Value := t.Value })) domains)

/-! ### Retry policy -/

/-- A provider error: the throttling signature the retry policy is
configured with (`get_retry(('Throttled',))`, line 49), or any other error
code. -/
inductive ProviderError where
  | Throttled
  | other (code : String)
deriving DecidableEq, Repr

/-- Modelled from the spec: `c7n.utils.get_retry` is not under `src/`.
"fails with `Throttled` retried transparently; fails with any other provider
error by propagating immediately (no retry, no swallow). Retries use
exponential backoff with a capped maximum attempt count; after exhausting
attempts, the last error is raised to the caller."  `call i` is the outcome
of the `i`-th invocation of the wrapped operation; `fuel` is the number of
attempts remaining; the result is paired with the total number of
invocations made. -/
def retryRun (call : Nat → Except ProviderError α) :
    Nat → Nat → Except ProviderError α × Nat
  | 0, i => (Except.error ProviderError.Throttled, i)
  | fuel + 1, i =>
    match call i with
    | Except.ok v => (Except.ok v, i + 1)
    | Except.error ProviderError.Throttled =>
      if fuel = 0 then (Except.error ProviderError.Throttled, i + 1)
      else retryRun call fuel (i + 1)
    | Except.error e => (Except.error e, i + 1)

/-- The retry wrapper `ElasticSearchDomain.retry` applied to one operation:
up to `max_attempts` invocations starting from the first. -/
def retryExecute (max_attempts : Nat) (call : Nat → Except ProviderError α) :
    Except ProviderError α × Nat :=
  retryRun call max_attempts 0

/-! ### Concrete inputs for counterexamples and witnesses -/

/-- A concrete configuration. -/
def cfg0 : Config := { region := "us-east-1", account_id := "644160558196" }

/-- A concrete provider client: describe responses carry only `DomainName`
(no `ARN`, no `Tags` key), and `list_tags` responses carry no `TagList`. -/
def client0 : Client :=
  { describeOne := fun d => { DomainName := d }, tagListOf := fun _ => none }

/-- A fresh manager (cache slot empty, as at construction time). -/
def mgr0 : ElasticSearchDomain := { config := cfg0 }

/-- Three bare records for the delete scenario. -/
def recA : ESRecord := { DomainName := "d1" }

def recB : ESRecord := { DomainName := "d2" }

def recC : ESRecord := { DomainName := "d3" }

/-- `delete_elasticsearch_domain` behaviour where exactly the call for `d2`
raises. -/
def delFail2 (d : String) : Option String :=
  if d = "d2" then some "ResourceNotFoundException" else none

/-- Three records with ARNs for the tagging scenarios. -/
def recT1 : ESRecord := { DomainName := "d1", ARN := some "arn1" }

def recT2 : ESRecord := { DomainName := "d2", ARN := some "arn2" }

def recT3 : ESRecord := { DomainName := "d3", ARN := some "arn3" }

/-- `add_tags` behaviour where exactly the call for `arn2` raises. -/
def addTagsFail2 (arn : String) (_ : List ESTag) : Option String :=
  if arn = "arn2" then some "ValidationException" else none

/-- `remove_tags` behaviour where exactly the call for `arn2` raises. -/
def removeTagsFail2 (arn : String) (_ : List String) : Option String :=
  if arn = "arn2" then some "ValidationException" else none

/-- A concrete tag list. -/
def tagsW : List ESTag := [{ Key := "Env", Value := "dev" }]

/-- A wrapped operation that is throttled on its first two invocations and
then succeeds. -/
def callThrottle2 : Nat → Except ProviderError Nat
  | 0 => Except.error ProviderError.Throttled
  | 1 => Except.error ProviderError.Throttled
  | _ => Except.ok 42

/-- A wrapped operation that always fails with a non-throttling error. -/
def callDenied : Nat → Except ProviderError Nat :=
  fun _ => Except.error (ProviderError.other "AccessDenied")

/-! ### Chunking lemmas -/

theorem chunks_flatten (n : Nat) (hn : n ≠ 0) (xs : List α) :
    (chunks xs n).flatten = xs := by
  rw [chunks.eq_def]
  split
  · rename_i h
    rcases h with h | h
    · exact absurd h hn
    · simp only [List.isEmpty_iff] at h
      simp [h, chunks]
  · rw [List.flatten_cons, chunks_flatten n hn (xs.drop n), List.take_append_drop]
termination_by xs.length
decreasing_by
  rename_i h
  simp only [not_or, List.isEmpty_iff] at h
  simp only [List.length_drop]
  exact Nat.sub_lt (List.length_pos.mpr h.2) (Nat.pos_of_ne_zero h.1)

theorem chunks_length (n : Nat) (hn : n ≠ 0) (xs : List α) :
    (chunks xs n).length = (xs.length + n - 1) / n := by
  rw [chunks.eq_def]
  split
  · rename_i h
    rcases h with h | h
    · exact absurd h hn
    · simp only [List.isEmpty_iff] at h
      subst h
      have h0 : (0 + n - 1) / n = 0 := Nat.div_eq_of_lt (by omega)
      simpa using h0.symm
  · rename_i h
    simp only [not_or, List.isEmpty_iff] at h
    rw [List.length_cons, chunks_length n hn (xs.drop n), List.length_drop]
    have hxs : 0 < xs.length := List.length_pos.mpr h.2
    have hn' : 0 < n := Nat.pos_of_ne_zero h.1
    rcases Nat.le_total n xs.length with hle | hge
    · have e1 : xs.length - n + n - 1 = xs.length - 1 := by omega
      rw [e1]
      have e2 : xs.length + n - 1 = (xs.length - 1) + n := by omega
      rw [e2, Nat.add_div_right _ hn']
    · have h1 : xs.length - n = 0 := by omega
      rw [h1]
      have h2 : (0 + n - 1) / n = 0 := Nat.div_eq_of_lt (by omega)
      rw [h2]
      have h3 : (xs.length + n - 1) / n = 1 :=
        Nat.div_eq_of_lt_le (by omega) (by omega)
      omega
termination_by xs.length
decreasing_by
  rename_i h
  simp only [not_or, List.isEmpty_iff] at h
  simp only [List.length_drop]
  exact Nat.sub_lt (List.length_pos.mpr h.2) (Nat.pos_of_ne_zero h.1)

theorem chunks_map_eq (n : Nat) (hn : n ≠ 0) (xs : List α) (f : α → β) :
    ((chunks xs n).map (List.map f)).flatten = xs.map f := by
  rw [← List.map_flatten, chunks_flatten n hn]

/-! ### Augmentation lemmas -/

theorem sum_map_one (l : List α) : (l.map (fun _ => (1 : Nat))).sum = l.length := by
  induction l with
  | nil => rfl
  | cons x xs ih => simp [ih, Nat.add_comm]

theorem _augment_fst (cfg : Config) (client : Client) (c : List String) :
    (_augment cfg client c).1 = c.map (augmentOne cfg client) := by
  simp only [_augment, List.map_map]
  rfl

theorem _augment_count_describes (cfg : Config) (client : Client) (c : List String) :
    countDescribes (_augment cfg client c).2 = 1 := by
  simp [_augment, countDescribes, List.countP_cons, List.countP_map,
    isDescribeCall, Function.comp_def]

theorem _augment_count_listtags (cfg : Config) (client : Client) (c : List String) :
    countListTags (_augment cfg client c).2 = c.length := by
  simp [_augment, countListTags, List.countP_cons, List.countP_map,
    isListTagsCall, isDescribeCall, Function.comp_def, List.countP_eq_length]

theorem augment_fst_eq (cfg : Config) (client : Client) (domains : List String) :
    (augment cfg client domains).1 = domains.map (augmentOne cfg client) := by
  simp only [augment, List.map_map]
  have h : (Prod.fst ∘ _augment cfg client) = fun c => c.map (augmentOne cfg client) :=
    funext fun c => _augment_fst cfg client c
  rw [h]
  exact chunks_map_eq 5 (by decide) domains (augmentOne cfg client)

theorem augment_count_describes (cfg : Config) (client : Client) (domains : List String) :
    countDescribes (augment cfg client domains).2 = (domains.length + 4) / 5 := by
  simp only [augment, countDescribes, List.countP_flatten, List.map_map]
  have h : ((List.countP isDescribeCall) ∘ Prod.snd ∘ _augment cfg client) =
      fun _ => (1 : Nat) :=
    funext fun c => _augment_count_describes cfg client c
  rw [h, sum_map_one, chunks_length 5 (by decide) domains]
  norm_num

theorem augment_count_listtags (cfg : Config) (client : Client) (domains : List String) :
    countListTags (augment cfg client domains).2 = domains.length := by
  simp only [augment, countListTags, List.countP_flatten, List.map_map]
  have h : ((List.countP isListTagsCall) ∘ Prod.snd ∘ _augment cfg client) =
      fun c => c.length :=
    funext fun c => _augment_count_listtags cfg client c
  rw [h]
  have h2 : ((chunks domains 5).map (fun c => c.length)).sum =
      (chunks domains 5).flatten.length := (List.length_flatten _).symm
  rw [h2, chunks_flatten 5 (by decide) domains]

theorem markForOpLoop_eq_addTagLoop (add_tags : String → List ESTag → Option String)
    (tag_list : List ESTag) (domains : List ESRecord) :
    esMarkForOpLoop add_tags tag_list domains =
      esAddTagLoop add_tags tag_list domains := by
  induction domains with
  | nil => rfl
  | cons d rest ih =>
    simp only [esMarkForOpLoop, esAddTagLoop, addTagsAttempt]
    rw [ih]

/-! ### Delete, tag-loop, and retry lemmas -/

theorem deleteProcess_first_failure (delete_domain : String → Option String)
    (r : ESRecord) (e : String) (hfail : delete_domain r.DomainName = some e) :
    ∀ (pre post : List ESRecord), (∀ p ∈ pre, delete_domain p.DomainName = none) →
      deleteProcess delete_domain (pre ++ r :: post) =
        (some e, (pre ++ [r]).map (fun x => ApiCall.deleteDomain x.DomainName)) := by
  intro pre
  induction pre with
  | nil =>
    intro post _
    simp [deleteProcess, hfail]
  | cons p rest ih =>
    intro post hpre
    have hp : delete_domain p.DomainName = none := hpre p (List.mem_cons_self p rest)
    simp only [List.cons_append, deleteProcess, hp, List.append_eq]
    rw [ih post (fun x hx => hpre x (List.mem_cons_of_mem p hx))]
    simp

theorem esAddTagLoop_mem (add_tags : String → List ESTag → Option String)
    (tag_list : List ESTag) (domains : List ESRecord) :
    ∀ d ∈ domains, ∀ arn, d.ARN = some arn →
      ApiCall.addTags arn tag_list ∈ (esAddTagLoop add_tags tag_list domains).1 := by
  induction domains with
  | nil =>
    intro d hd
    cases hd
  | cons x rest ih =>
    intro d hd arn harn
    rcases List.mem_cons.mp hd with h | h
    · subst h
      simp only [esAddTagLoop, addTagsAttempt, harn]
      exact List.mem_append_left _ (List.mem_singleton.mpr rfl)
    · simp only [esAddTagLoop]
      exact List.mem_append_right _ (ih d h arn harn)

theorem esRemoveTagLoop_mem (remove_tags : String → List String → Option String)
    (tagKeys : List String) (domains : List ESRecord) :
    ∀ d ∈ domains, ∀ arn, d.ARN = some arn →
      ApiCall.removeTags arn tagKeys ∈
        (esRemoveTagLoop remove_tags tagKeys domains).1 := by
  induction domains with
  | nil =>
    intro d hd
    cases hd
  | cons x rest ih =>
    intro d hd arn harn
    rcases List.mem_cons.mp hd with h | h
    · subst h
      simp only [esRemoveTagLoop, removeTagsAttempt, harn]
      exact List.mem_append_left _ (List.mem_singleton.mpr rfl)
    · simp only [esRemoveTagLoop]
      exact List.mem_append_right _ (ih d h arn harn)

theorem retryRun_success {α : Type} (call : Nat → Except ProviderError α) (v : α) :
    ∀ (k fuel i : Nat), k < fuel →
      (∀ j, j < k → call (i + j) = Except.error ProviderError.Throttled) →
      call (i + k) = Except.ok v →
      retryRun call fuel i = (Except.ok v, i + k + 1) := by
  intro k
  induction k with
  | zero =>
    intro fuel i hk _ hok
    cases fuel with
    | zero => omega
    | succ f =>
      simp only [Nat.add_zero] at hok
      simp only [retryRun, hok]
  | succ k ih =>
    intro fuel i hk hthr hok
    cases fuel with
    | zero => omega
    | succ f =>
      have h0 : call i = Except.error ProviderError.Throttled := by
        simpa using hthr 0 (Nat.succ_pos k)
      simp only [retryRun, h0]
      rw [if_neg (by omega : ¬ f = 0)]
      have harith : i + 1 + k = i + (k + 1) := by omega
      have hrec := ih f (i + 1) (by omega)
        (fun j hj => by
          have hj1 := hthr (j + 1) (by omega)
          have e1 : i + 1 + j = i + (j + 1) := by omega
          rw [e1]
          exact hj1)
        (by rw [harith]; exact hok)
      rw [hrec]
      congr 1
      omega

theorem retryRun_exhaust {α : Type} (call : Nat → Except ProviderError α) :
    ∀ (fuel i : Nat), 0 < fuel →
      (∀ j, j < fuel → call (i + j) = Except.error ProviderError.Throttled) →
      retryRun call fuel i = (Except.error ProviderError.Throttled, i + fuel) := by
  intro fuel
  induction fuel with
  | zero =>
    intro i h
    omega
  | succ f ih =>
    intro i _ hthr
    have h0 : call i = Except.error ProviderError.Throttled := by
      simpa using hthr 0 (Nat.succ_pos f)
    simp only [retryRun, h0]
    cases Nat.eq_zero_or_pos f with
    | inl hf =>
      subst hf
      simp
    | inr hf =>
      rw [if_neg (by omega : ¬ f = 0)]
      rw [ih (i + 1) hf (fun j hj => by
        have hj1 := hthr (j + 1) (by omega)
        have e1 : i + 1 + j = i + (j + 1) := by omega
        rw [e1]
        exact hj1)]
      congr 1
      omega

theorem retryRun_other {α : Type} (call : Nat → Except ProviderError α) (c : String) :
    ∀ (k fuel i : Nat), k < fuel →
      (∀ j, j < k → call (i + j) = Except.error ProviderError.Throttled) →
      call (i + k) = Except.error (ProviderError.other c) →
      retryRun call fuel i = (Except.error (ProviderError.other c), i + k + 1) := by
  intro k
  induction k with
  | zero =>
    intro fuel i hk _ hother
    cases fuel with
    | zero => omega
    | succ f =>
      simp only [Nat.add_zero] at hother
      simp only [retryRun, hother]
  | succ k ih =>
    intro fuel i hk hthr hother
    cases fuel with
    | zero => omega
    | succ f =>
      have h0 : call i = Except.error ProviderError.Throttled := by
        simpa using hthr 0 (Nat.succ_pos k)
      simp only [retryRun, h0]
      rw [if_neg (by omega : ¬ f = 0)]
      have harith : i + 1 + k = i + (k + 1) := by omega
      have hrec := ih f (i + 1) (by omega)
        (fun j hj => by
          have hj1 := hthr (j + 1) (by omega)
          have e1 : i + 1 + j = i + (j + 1) := by omega
          rw [e1]
          exact hj1)
        (by rw [harith]; exact hother)
      rw [hrec]
      congr 1
      omega

theorem callThrottle2_throttles : ∀ j, j < 2 →
    callThrottle2 j = Except.error ProviderError.Throttled := by
  intro j hj
  match j with
  | 0 => rfl
  | 1 => rfl
  | n + 2 => omega

/-! ### Claim theorems -/

/-- C1: for every input id list of length `L`, `augment` partitions the ids
into chunks of maximum size 5, issues exactly `ceil(L/5)` describe calls
(in `Nat`, `(L + 4) / 5`) and at most `L` `list_tags` calls, and returns a
sequence of length `L` that is the concatenation of the chunk results in
chunk-submission order with provider response order preserved within each
chunk — equivalently, one augmented record per input id, in input order. -/
theorem claim_augment_chunking (cfg : Config) (client : Client)
    (domains : List String) :
    countDescribes (augment cfg client domains).2 = (domains.length + 4) / 5 ∧
    countListTags (augment cfg client domains).2 ≤ domains.length ∧
    (augment cfg client domains).1.length = domains.length ∧
    (augment cfg client domains).1 =
      ((chunks domains 5).map (fun c => (_augment cfg client c).1)).flatten ∧
    (augment cfg client domains).1 = domains.map (augmentOne cfg client) := by
  refine ⟨augment_count_describes cfg client domains,
    Nat.le_of_eq (augment_count_listtags cfg client domains), ?_, ?_,
    augment_fst_eq cfg client domains⟩
  · rw [augment_fst_eq]
    exact List.length_map domains _
  · simp only [augment, List.map_map]
    rfl

/-- C2 counterexample: with a provider whose describe response carries no
`ARN` field, the record produced by `augment` does not have an `ARN` field
equal to `generate_arn` of its identifying field — the generated ARN is
computed only as the `list_tags` argument (line 77) and never assigned into
the record, so the claim as stated is false. -/
theorem claim_augment_arn_counterexample :
    ¬ (∀ r ∈ (augment cfg0 client0 ["dev-search"]).1,
        r.ARN = some (esArnOf cfg0 r.DomainName)) := by
  intro hall
  have h1 : (augment cfg0 client0 ["dev-search"]).1 =
      ["dev-search"].map (augmentOne cfg0 client0) :=
    augment_fst_eq cfg0 client0 _
  have hmem : augmentOne cfg0 client0 "dev-search" ∈
      (augment cfg0 client0 ["dev-search"]).1 := by
    rw [h1]
    simp
  have hr := hall _ hmem
  simp [augmentOne, client0, cfg0, esArnOf, generate_arn] at hr

/-- C2 amended: every record produced by `augment` has `Tags` present (the
provider's tag list, `[]` when the response has no `TagList`); the ARN
obtained from `generate_arn` applied to the record's identifying field is
used as the `list_tags` argument, but is not assigned into the record — the
record's `ARN` field keeps whatever the provider's describe response
contained. -/
theorem claim_augment_tags_arn_amended (cfg : Config) (client : Client)
    (domains : List String) :
    (augment cfg client domains).1 = domains.map (augmentOne cfg client) ∧
    (∀ d : String,
      (augmentOne cfg client d).Tags =
        some ((client.tagListOf
          (esArnOf cfg (client.describeOne d).DomainName)).getD []) ∧
      (augmentOne cfg client d).ARN = (client.describeOne d).ARN ∧
      (augmentOne cfg client d).DomainName = (client.describeOne d).DomainName) ∧
    (∀ c : List String, (_augment cfg client c).2 =
      ApiCall.describeDomains c ::
        (c.map client.describeOne).map
          (fun r => ApiCall.listTags (esArnOf cfg r.DomainName))) :=
  ⟨augment_fst_eq cfg client domains, fun _ => ⟨rfl, rfl, rfl⟩, fun _ => rfl⟩

/-- C6: `augment` applied to the empty id list returns the empty sequence
and issues zero provider API calls (the trace is empty: no describe and no
`list_tags` calls). -/
theorem claim_augment_empty (cfg : Config) (client : Client) :
    augment cfg client [] = ([], []) := by
  simp [augment, chunks]

/-- C7: `get_resources` returns the provider's describe-by-id records (the
`DomainStatusList`) directly: its trace is a single describe call with no
`list_tags` calls, and the returned records are exactly the provider's
responses, with no `Tags` field populated on any of them. -/
theorem claim_get_resources_direct (client : Client) (resource_ids : List String) :
    (get_resources client resource_ids).1 = resource_ids.map client.describeOne ∧
    (get_resources client resource_ids).2 = [ApiCall.describeDomains resource_ids] ∧
    countListTags (get_resources client resource_ids).2 = 0 :=
  ⟨rfl, rfl, rfl⟩

/-- C9: `ElasticSearchMarkForOp.process_resource_set` is functionally
identical to `ElasticSearchAddTag.process_resource_set`: for every batch of
domains and every tag list both build the same `{Key, Value}` tag list and
produce the same escaping-exception outcome (none), the same provider-call
sequence, and the same log. -/
theorem claim_mark_for_op_equals_tag (add_tags : String → List ESTag → Option String)
    (domains : List ESRecord) (tags : List ESTag) :
    esMarkForOpProcessResourceSet add_tags domains tags =
      esAddTagProcessResourceSet add_tags domains tags := by
  simp only [esMarkForOpProcessResourceSet, esAddTagProcessResourceSet, mkTagList]
  rw [markForOpLoop_eq_addTagLoop]

/-- C10: the metrics filter supplies exactly two dimensions for a resource
record: `ClientId` carrying the account id and `DomainName` carrying the
record's display name, and no others. -/
theorem claim_metrics_dimensions (account_id : String) (resource : ESRecord) :
    get_dimensions account_id resource =
      [{ Name := "ClientId", Value := account_id },
       { Name := "DomainName", Value := resource.DomainName }] ∧
    (get_dimensions account_id resource).length = 2 :=
  ⟨rfl, rfl⟩

/-- C3 counterexample: on three records where the delete call for the second
raises, `Delete.process` does not attempt all three deletes and the
exception escapes — the loop body (lines 117-118) has no try/except, so the
claimed per-resource isolation is false for this action. -/
theorem claim_delete_isolation_counterexample :
    ¬ ((deleteProcess delFail2 [recA, recB, recC]).1 = none ∧
       (deleteProcess delFail2 [recA, recB, recC]).2.length = 3) := by
  decide

/-- C3 amended: `Delete.process` attempts deletes sequentially in record
order, and the first raising delete call aborts the loop: delete is
attempted exactly for the records up to and including the failing one, and
that exception escapes `process` (no per-resource catch, no logging). -/
theorem claim_delete_aborts_amended (delete_domain : String → Option String)
    (pre post : List ESRecord) (r : ESRecord) (e : String)
    (hpre : ∀ p ∈ pre, delete_domain p.DomainName = none)
    (hfail : delete_domain r.DomainName = some e) :
    deleteProcess delete_domain (pre ++ r :: post) =
      (some e, (pre ++ [r]).map (fun x => ApiCall.deleteDomain x.DomainName)) :=
  deleteProcess_first_failure delete_domain r e hfail pre post hpre

/-- C3 amended, witnessed at the three-record scenario: the second delete
raising leaves exactly two attempted deletes and an escaping exception. -/
theorem claim_delete_aborts_amended_witness :
    deleteProcess delFail2 [recA, recB, recC] =
      (some "ResourceNotFoundException",
        [ApiCall.deleteDomain "d1", ApiCall.deleteDomain "d2"]) := by
  have h := claim_delete_aborts_amended delFail2 [recA] [recC] recB
    "ResourceNotFoundException" (by decide) (by decide)
  simpa [recA, recB, recC] using h

/-- C4: for every batch, every tag list and every per-resource failure
behaviour of the provider (in particular when exactly one record always
fails), `ElasticSearchAddTag.process_resource_set` issues an `add_tags`
call for every record that has an ARN — so all other M−1 records are
processed — catches every per-resource error inside the loop, and lets no
exception escape; `ElasticSearchRemoveTag.process_resource_set` does the
same with `remove_tags`. -/
theorem claim_tag_action_isolation
    (add_tags : String → List ESTag → Option String)
    (remove_tags : String → List String → Option String)
    (domains : List ESRecord) (tags : List ESTag) (tagKeys : List String) :
    (esAddTagProcessResourceSet add_tags domains tags).1 = none ∧
    (∀ d ∈ domains, ∀ arn, d.ARN = some arn →
      ApiCall.addTags arn (mkTagList tags) ∈
        (esAddTagProcessResourceSet add_tags domains tags).2.1) ∧
    (esRemoveTagProcessResourceSet remove_tags domains tagKeys).1 = none ∧
    (∀ d ∈ domains, ∀ arn, d.ARN = some arn →
      ApiCall.removeTags arn tagKeys ∈
        (esRemoveTagProcessResourceSet remove_tags domains tagKeys).2.1) :=
  ⟨rfl, esAddTagLoop_mem add_tags (mkTagList tags) domains, rfl,
    esRemoveTagLoop_mem remove_tags tagKeys domains⟩

/-- C4 witnessed on a three-record batch where the `add_tags` (resp.
`remove_tags`) call for the second record's ARN always fails: no exception
escapes and the calls for the first and third records are still issued. -/
theorem claim_tag_action_isolation_witness :
    (esAddTagProcessResourceSet addTagsFail2 [recT1, recT2, recT3] tagsW).1 = none ∧
    ApiCall.addTags "arn1" (mkTagList tagsW) ∈
      (esAddTagProcessResourceSet addTagsFail2 [recT1, recT2, recT3] tagsW).2.1 ∧
    ApiCall.addTags "arn3" (mkTagList tagsW) ∈
      (esAddTagProcessResourceSet addTagsFail2 [recT1, recT2, recT3] tagsW).2.1 ∧
    ApiCall.removeTags "arn3" ["Env"] ∈
      (esRemoveTagProcessResourceSet removeTagsFail2 [recT1, recT2, recT3] ["Env"]).2.1 :=
  ⟨(claim_tag_action_isolation addTagsFail2 removeTagsFail2
      [recT1, recT2, recT3] tagsW ["Env"]).1,
    (claim_tag_action_isolation addTagsFail2 removeTagsFail2
      [recT1, recT2, recT3] tagsW ["Env"]).2.1 recT1 (by decide) "arn1" rfl,
    (claim_tag_action_isolation addTagsFail2 removeTagsFail2
      [recT1, recT2, recT3] tagsW ["Env"]).2.1 recT3 (by decide) "arn3" rfl,
    (claim_tag_action_isolation addTagsFail2 removeTagsFail2
      [recT1, recT2, recT3] tagsW ["Env"]).2.2.2 recT3 (by decide) "arn3" rfl⟩

/-- C5: the configured retry policy retries only on the Throttled
signature: if the wrapped call is throttled on its first `K` invocations,
then (a) if `K` is below the maximum attempt count and invocation `K`
succeeds, `execute` returns that success after exactly `K + 1` invocations;
(b) if the throttling persists for the whole attempt budget (`K` at or
above the maximum), the last error is propagated after exactly
`max_attempts` invocations; and (c) a non-Throttled error at invocation `K`
propagates immediately after `K + 1` invocations, with no further retry. -/
theorem claim_retry_policy {α : Type} (max_attempts K : Nat)
    (call : Nat → Except ProviderError α)
    (hthr : ∀ j, j < K → call j = Except.error ProviderError.Throttled) :
    (∀ v : α, K < max_attempts → call K = Except.ok v →
      retryExecute max_attempts call = (Except.ok v, K + 1)) ∧
    (0 < max_attempts → max_attempts ≤ K →
      retryExecute max_attempts call =
        (Except.error ProviderError.Throttled, max_attempts)) ∧
    (∀ c : String, K < max_attempts →
      call K = Except.error (ProviderError.other c) →
      retryExecute max_attempts call =
        (Except.error (ProviderError.other c), K + 1)) := by
  refine ⟨?_, ?_, ?_⟩
  · intro v hK hok
    have h := retryRun_success call v K max_attempts 0 hK
      (fun j hj => by simpa using hthr j hj) (by simpa using hok)
    simpa [retryExecute] using h
  · intro hpos hle
    have h := retryRun_exhaust call max_attempts 0 hpos
      (fun j hj => by simpa using hthr j (Nat.lt_of_lt_of_le hj hle))
    simpa [retryExecute] using h
  · intro c hK hother
    have h := retryRun_other call c K max_attempts 0 hK
      (fun j hj => by simpa using hthr j hj) (by simpa using hother)
    simpa [retryExecute] using h

/-- C5 witnessed: a call throttled exactly twice then succeeding returns the
success after 3 invocations under an 8-attempt budget, propagates Throttled
after exactly 2 invocations under a 2-attempt budget, and an AccessDenied
error propagates immediately after 1 invocation. -/
theorem claim_retry_policy_witness :
    retryExecute 8 callThrottle2 = (Except.ok 42, 3) ∧
    retryExecute 2 callThrottle2 = (Except.error ProviderError.Throttled, 2) ∧
    retryExecute 8 callDenied =
      (Except.error (ProviderError.other "AccessDenied"), 1) :=
  ⟨(claim_retry_policy 8 2 callThrottle2 callThrottle2_throttles).1 42 (by omega) rfl,
    (claim_retry_policy 2 2 callThrottle2 callThrottle2_throttles).2.1
      (by omega) (by omega),
    (claim_retry_policy 8 0 callDenied (fun j hj => absurd hj (by omega))).2.2
      "AccessDenied" (by omega) rfl⟩

/-- C8: the ARN generator is built lazily on first access of the
`generate_arn` property and cached on the manager instance: a fresh
manager's first access constructs the partial application of `generate_arn`
over the config and stores it in the cache slot (the one-time construction
is the only state effect); an access with a populated cache returns the
cached function with the state unchanged; hence every subsequent access
returns the very same function, which is the deterministic pure function
`esArnOf` of the config when starting from a fresh manager. -/
theorem claim_generate_arn_cached (m : ElasticSearchDomain) :
    (m._generate_arn = none →
      generateArnProp m =
        (esArnOf m.config, { m with _generate_arn := some (esArnOf m.config) })) ∧
    (∀ f, m._generate_arn = some f → generateArnProp m = (f, m)) ∧
    (generateArnProp m).2._generate_arn = some (generateArnProp m).1 ∧
    generateArnProp (generateArnProp m).2 =
      ((generateArnProp m).1, (generateArnProp m).2) := by
  obtain ⟨cfg, cache⟩ := m
  cases cache with
  | none =>
    refine ⟨fun _ => rfl, ?_, rfl, rfl⟩
    intro f hf
    exact absurd hf (by simp)
  | some f =>
    refine ⟨?_, ?_, rfl, rfl⟩
    · intro h
      exact absurd h (by simp)
    · intro g hg
      injection hg with hg
      subst hg
      rfl

/-- C8 witnessed on a fresh manager: the first access builds and caches the
generator, and a second access returns the same function with no state
change. -/
theorem claim_generate_arn_cached_witness :
    generateArnProp mgr0 =
      (esArnOf cfg0, { config := cfg0, _generate_arn := some (esArnOf cfg0) }) ∧
    generateArnProp (generateArnProp mgr0).2 =
      ((generateArnProp mgr0).1, (generateArnProp mgr0).2) :=
  ⟨(claim_generate_arn_cached mgr0).1 rfl,
    (claim_generate_arn_cached mgr0).2.2.2⟩

end ES
